import Mathlib

/-!
Verification of the warp2api account-pool service and its per-process
session auth broker.

The development shallowly embeds:
* `account_pool/quota_tracker.py` (`QuotaTracker.mark_account_quota_exhausted`,
  `QuotaTracker.reset_expired_quotas`) over a list-of-rows model of the
  sqlite `accounts` table;
* the `mark_quota_exhausted` REST endpoint of `main.py`;
* `account_pool/batch_register.py` (`BatchRegister.register_accounts_concurrent`
  and `_register_single_account`) as a per-attempt outcome model;
* the `allocate` REST endpoint of `main.py` on top of a spec-modelled
  pool-manager allocation (the file `account_pool/pool_manager.py` is imported
  by `main.py` but is not part of the sources);
* `warp2protobuf/core/pool_auth.py` (`PoolAuthManager.acquire_pool_access_token`,
  `_is_session_valid`, `release_current_session`) together with an interleaving
  model of two concurrent acquire calls sharing the module-level session cache.

Timestamps are modelled as integer (or natural) seconds; `timedelta(days=30)`
is `30 * 86400` seconds, the broker TTL is `1800` seconds.
-/

/-- Status values stored in the `status` column of the `accounts` table. -/
inductive AccountStatus where
  | available
  | in_use
  | quota_exhausted
deriving DecidableEq, Repr

/-- One row of the `accounts` table, restricted to the columns the quota and
allocation operations read or write. -/
structure AccountRow where
  email : String
  status : AccountStatus
  session_id : Option String
  quota_exhausted_at : Option Int
deriving DecidableEq, Repr

/-- 30 days in seconds: `timedelta(days=self.quota_reset_days)` with
`quota_reset_days = 30` in `QuotaTracker.__init__`. -/
def quotaResetSeconds : Int := 30 * 86400

/-- `QuotaTracker.mark_account_quota_exhausted`: one sqlite `UPDATE` that sets
`status = 'quota_exhausted'`, `quota_exhausted_at = now`, `session_id = NULL`
on every row whose `email` matches, then returns `rowcount > 0`. -/
def markAccountQuotaExhausted (now : Int) (email : String) (table : List AccountRow) :
    Bool × List AccountRow :=
  let updated := table.map (fun r =>
    if r.email == email then
      { r with status := .quota_exhausted
               quota_exhausted_at := some now
               session_id := none }
    else r)
  let affected := table.countP (fun r => r.email == email)
  (decide (0 < affected), updated)

/-- The row predicate of the `WHERE` clause in `reset_expired_quotas`:
`status = 'quota_exhausted' AND quota_exhausted_at < reset_threshold`
(`NULL` never compares less-than). -/
def quotaExpiredRow (threshold : Int) (r : AccountRow) : Bool :=
  r.status == .quota_exhausted &&
    (match r.quota_exhausted_at with
     | some t => decide (t < threshold)
     | none => false)

/-- `QuotaTracker.reset_expired_quotas`: computes
`reset_threshold = now - 30 days`, then one `UPDATE` that sets
`status = 'available'`, `quota_exhausted_at = NULL` on every row matching
`quotaExpiredRow`, returning the number of rows updated. -/
def resetExpiredQuotas (now : Int) (table : List AccountRow) :
    Nat × List AccountRow :=
  let threshold := now - quotaResetSeconds
  let updated := table.map (fun r =>
    if quotaExpiredRow threshold r then
      { r with status := .available, quota_exhausted_at := none }
    else r)
  (table.countP (quotaExpiredRow threshold), updated)

/-- The `POST /api/accounts/mark_quota_exhausted` handler of `main.py`:
missing `email` gives HTTP 400; otherwise the tracker result is wrapped in a
JSON body `{"success": ...}` and returned without raising. -/
def markQuotaExhaustedEndpoint (emailParam : Option String) (now : Int)
    (table : List AccountRow) : Except Nat (Bool × List AccountRow) :=
  match emailParam with
  | none => .error 400
  | some email => .ok (markAccountQuotaExhausted now email table)

/-- The data-model invariant from the spec:
`quota_exhausted_at ≠ null ⇔ status = quota_exhausted`. -/
def quotaInvariant (r : AccountRow) : Prop :=
  r.quota_exhausted_at ≠ none ↔ r.status = .quota_exhausted

/-- C4: marking an existing email quota-exhausted returns `true` whatever the
current status; afterwards every row with that email has
`status = quota_exhausted`, `session_id = NULL`, `quota_exhausted_at = now`,
and every row with a different email is unchanged (position by position). -/
theorem c4_mark_existing_email (now : Int) (email : String) (table : List AccountRow)
    (h : ∃ r, r ∈ table ∧ r.email = email) :
    (markAccountQuotaExhausted now email table).1 = true ∧
    (markAccountQuotaExhausted now email table).2.length = table.length ∧
    (∀ r ∈ (markAccountQuotaExhausted now email table).2, r.email = email →
       r.status = .quota_exhausted ∧ r.session_id = none ∧
       r.quota_exhausted_at = some now) ∧
    (∀ i (hi : i < table.length)
       (hi2 : i < (markAccountQuotaExhausted now email table).2.length),
       (table.get ⟨i, hi⟩).email ≠ email →
       (markAccountQuotaExhausted now email table).2.get ⟨i, hi2⟩ = table.get ⟨i, hi⟩) := by
  refine ⟨?_, ?_, ?_, ?_⟩
  · obtain ⟨r, hr, he⟩ := h
    simp only [markAccountQuotaExhausted, decide_eq_true_eq]
    exact List.countP_pos_iff.mpr ⟨r, hr, by simp [he]⟩
  · simp [markAccountQuotaExhausted]
  · intro r hr hre
    simp only [markAccountQuotaExhausted, List.mem_map] at hr
    obtain ⟨r0, _, hr0⟩ := hr
    by_cases hcase : r0.email = email
    · simp [hcase] at hr0
      subst hr0
      exact ⟨rfl, rfl, rfl⟩
    · simp [hcase] at hr0
      subst hr0
      exact absurd hre hcase
  · intro i hi hi2 hne
    simp only [List.get_eq_getElem] at hne ⊢
    have hne2 : table[i].email ≠ email := hne
    simp only [markAccountQuotaExhausted, List.getElem_map]
    simp [hne2]

/-- Witness for C4 at a one-row table. -/
theorem c4_mark_existing_email_witness :
    (markAccountQuotaExhausted 7 "a@x"
      [⟨"a@x", .in_use, some "s1", none⟩]).1 = true :=
  (c4_mark_existing_email 7 "a@x" [⟨"a@x", .in_use, some "s1", none⟩]
    ⟨⟨"a@x", .in_use, some "s1", none⟩, by simp, rfl⟩).1

/-- C5 counterexample: a row exhausted at `T = 0`, reclaimed exactly at
`T + 30 days = 2592000` seconds, is NOT reset: the source compares with a
strict `quota_exhausted_at < now - 30 days`, so the claimed "a reclaim run at
or after T + 30 days does transition it to available" fails at the boundary. -/
theorem c5_reclaim_at_boundary_counterexample :
    (resetExpiredQuotas 2592000 [⟨"a@x", .quota_exhausted, none, some 0⟩]).1 = 0 ∧
    (resetExpiredQuotas 2592000 [⟨"a@x", .quota_exhausted, none, some 0⟩]).2 =
      [⟨"a@x", .quota_exhausted, none, some 0⟩] := by
  constructor <;> rfl

/-- C5 (amended): a row marked quota-exhausted at time `T` is never reclaimed
by a run at time `now ≤ T + 30 days`, and a run at `now > T + 30 days`
(strictly after the cool-down) does reset it to `available`, clears
`quota_exhausted_at`, and counts it in the returned reset count. -/
theorem c5_reclaim_cooldown (now T : Int) (table : List AccountRow)
    (i : Nat) (hi : i < table.length)
    (hstatus : (table.get ⟨i, hi⟩).status = .quota_exhausted)
    (hT : (table.get ⟨i, hi⟩).quota_exhausted_at = some T) :
    (resetExpiredQuotas now table).2.length = table.length ∧
    (now ≤ T + quotaResetSeconds →
      ∀ hi2 : i < (resetExpiredQuotas now table).2.length,
        (resetExpiredQuotas now table).2.get ⟨i, hi2⟩ = table.get ⟨i, hi⟩) ∧
    (T + quotaResetSeconds < now →
      (∀ hi2 : i < (resetExpiredQuotas now table).2.length,
        (resetExpiredQuotas now table).2.get ⟨i, hi2⟩ =
          { table.get ⟨i, hi⟩ with status := .available, quota_exhausted_at := none }) ∧
      0 < (resetExpiredQuotas now table).1) := by
  simp only [List.get_eq_getElem] at hstatus hT
  have hpred : ∀ b : Bool,
      quotaExpiredRow (now - quotaResetSeconds) table[i] = b ↔
      (decide (T < now - quotaResetSeconds)) = b := by
    intro b
    simp [quotaExpiredRow, hstatus, hT]
  refine ⟨by simp [resetExpiredQuotas], ?_, ?_⟩
  · intro hle hi2
    simp only [List.get_eq_getElem, resetExpiredQuotas, List.getElem_map]
    have hfalse : quotaExpiredRow (now - quotaResetSeconds) table[i] = false := by
      rw [hpred]
      simp only [decide_eq_false_iff_not]
      omega
    simp [hfalse]
  · intro hlt
    have hmatch : quotaExpiredRow (now - quotaResetSeconds) table[i] = true := by
      rw [hpred]
      simp only [decide_eq_true_eq]
      omega
    constructor
    · intro hi2
      simp only [List.get_eq_getElem, resetExpiredQuotas, List.getElem_map]
      simp [hmatch]
    · simp only [resetExpiredQuotas]
      exact List.countP_pos_iff.mpr ⟨table[i], List.getElem_mem hi, hmatch⟩

/-- Witness for C5: at `T = 0` the row is untouched by a run at
`now = 2592000` and reset by a run at `now = 2592001`. -/
theorem c5_reclaim_cooldown_witness :
    (resetExpiredQuotas 2592000 [⟨"a@x", .quota_exhausted, none, some 0⟩]).2.get
        ⟨0, by simp [resetExpiredQuotas]⟩ =
      ⟨"a@x", .quota_exhausted, none, some 0⟩ ∧
    (resetExpiredQuotas 2592001 [⟨"a@x", .quota_exhausted, none, some 0⟩]).2.get
        ⟨0, by simp [resetExpiredQuotas]⟩ =
      ⟨"a@x", .available, none, none⟩ ∧
    0 < (resetExpiredQuotas 2592001 [⟨"a@x", .quota_exhausted, none, some 0⟩]).1 := by
  refine ⟨?_, ?_, ?_⟩
  · exact ((c5_reclaim_cooldown 2592000 0
      [⟨"a@x", .quota_exhausted, none, some 0⟩] 0 (by simp) rfl rfl).2.1
      (by decide) _)
  · exact ((c5_reclaim_cooldown 2592001 0
      [⟨"a@x", .quota_exhausted, none, some 0⟩] 0 (by simp) rfl rfl).2.2
      (by decide)).1 _
  · exact ((c5_reclaim_cooldown 2592001 0
      [⟨"a@x", .quota_exhausted, none, some 0⟩] 0 (by simp) rfl rfl).2.2
      (by decide)).2

/-- C6: the invariant `quota_exhausted_at ≠ null ⇔ status = quota_exhausted`
is preserved by marking quota-exhausted (both fields set together) and by
reclaiming expired rows (both fields cleared together). -/
theorem c6_quota_invariant_preserved (now : Int) (email : String)
    (table : List AccountRow) (h : ∀ r ∈ table, quotaInvariant r) :
    (∀ r ∈ (markAccountQuotaExhausted now email table).2, quotaInvariant r) ∧
    (∀ r ∈ (resetExpiredQuotas now table).2, quotaInvariant r) := by
  constructor
  · intro r hr
    simp only [markAccountQuotaExhausted, List.mem_map] at hr
    obtain ⟨r0, hr0mem, hr0⟩ := hr
    by_cases hcase : r0.email = email
    · simp only [hcase, beq_self_eq_true, if_true] at hr0
      subst hr0
      simp [quotaInvariant]
    · simp [hcase] at hr0
      subst hr0
      exact h r0 hr0mem
  · intro r hr
    simp only [resetExpiredQuotas, List.mem_map] at hr
    obtain ⟨r0, hr0mem, hr0⟩ := hr
    by_cases hcase : quotaExpiredRow (now - quotaResetSeconds) r0 = true
    · simp only [hcase, if_true] at hr0
      subst hr0
      simp [quotaInvariant]
    · simp only [Bool.not_eq_true] at hcase
      simp only [hcase, if_false] at hr0
      subst hr0
      exact h r0 hr0mem

/-- Witness for C6 on a two-row table satisfying the invariant. -/
theorem c6_quota_invariant_preserved_witness :
    (∀ r ∈ (markAccountQuotaExhausted 5 "a@x"
        [⟨"a@x", .available, none, none⟩,
         ⟨"b@x", .quota_exhausted, none, some 1⟩]).2, quotaInvariant r) ∧
    (∀ r ∈ (resetExpiredQuotas 5
        [⟨"a@x", .available, none, none⟩,
         ⟨"b@x", .quota_exhausted, none, some 1⟩]).2, quotaInvariant r) :=
  c6_quota_invariant_preserved 5 "a@x"
    [⟨"a@x", .available, none, none⟩, ⟨"b@x", .quota_exhausted, none, some 1⟩]
    (by
      intro r hr
      simp only [List.mem_cons, List.mem_singleton] at hr
      rcases hr with h1 | h1 | h1
      · subst h1; simp [quotaInvariant]
      · subst h1; simp [quotaInvariant]
      · cases h1)

/-- C8: marking an email that is not in the table returns `success = false`,
leaves the table unchanged, and neither the tracker nor the REST endpoint
raises: the endpoint returns an ok `{"success": false}` body. -/
theorem c8_mark_unknown_email (now : Int) (email : String) (table : List AccountRow)
    (h : ∀ r ∈ table, r.email ≠ email) :
    markAccountQuotaExhausted now email table = (false, table) ∧
    markQuotaExhaustedEndpoint (some email) now table = .ok (false, table) := by
  have hcount : table.countP (fun r => r.email == email) = 0 := by
    rw [List.countP_eq_zero]
    intro r hr
    simp [h r hr]
  have hmap : (table.map (fun r =>
      if r.email == email then
        { r with status := AccountStatus.quota_exhausted
                 quota_exhausted_at := some now
                 session_id := none }
      else r)) = table := by
    conv_rhs => rw [← List.map_id table]
    apply List.map_congr_left
    intro r hr
    simp [h r hr]
  constructor
  · simp only [markAccountQuotaExhausted, hcount, hmap]
    rfl
  · simp only [markQuotaExhaustedEndpoint, markAccountQuotaExhausted, hcount, hmap]
    rfl

/-- Witness for C8: marking `"ghost@x"` against a table that does not contain
it. -/
theorem c8_mark_unknown_email_witness :
    markAccountQuotaExhausted 3 "ghost@x" [⟨"a@x", .available, none, none⟩] =
      (false, [⟨"a@x", .available, none, none⟩]) ∧
    markQuotaExhaustedEndpoint (some "ghost@x") 3 [⟨"a@x", .available, none, none⟩] =
      .ok (false, [⟨"a@x", .available, none, none⟩]) :=
  c8_mark_unknown_email 3 "ghost@x" [⟨"a@x", .available, none, none⟩]
    (by
      intro r hr
      simp only [List.mem_singleton] at hr
      subst hr
      decide)

/-- The outcome profile of one Registrar attempt run by
`BatchRegister._register_single_account`: whether
`run_complete_registration` succeeded, whether the Warp GraphQL activation
succeeded, whether `db.add_account` completed without raising, the wall-clock
duration of the attempt in seconds, and the provisioned email. -/
structure AttemptSpec where
  regSuccess : Bool
  activationSuccess : Bool
  dbAddOk : Bool
  duration : Nat
  email : String
deriving DecidableEq, Repr

/-- The result dict of `_register_single_account`, restricted to the fields
the collection loop reads. -/
structure AttemptResult where
  success : Bool
deriving DecidableEq, Repr

/-- `BatchRegister._register_single_account`: on provisioning plus activation
success it attempts `db.add_account` — a failure there is caught, only a
warning is printed, and the attempt still returns `success = True`; on any
earlier failure nothing is written. The second component is the list of
emails written to the credential store by this attempt. -/
def registerSingleAccount (a : AttemptSpec) : AttemptResult × List String :=
  if a.regSuccess then
    if a.activationSuccess then
      (⟨true⟩, if a.dbAddOk then [a.email] else [])
    else
      (⟨false⟩, [])
  else
    (⟨false⟩, [])

/-- Aggregate counts returned by a replenishment pass, plus the store rows the
pass added. -/
structure PassSummary where
  successCount : Nat
  failedCount : Nat
  dbRows : List String
deriving DecidableEq, Repr

/-- The collection loop of `BatchRegister.register_accounts_concurrent`:
`for future in as_completed(futures): result = future.result(timeout=300)`.
`as_completed` yields a future only once it is already finished, so
`future.result(timeout=300)` returns immediately and the 300 s timeout can
never fire; every attempt is collected whatever its duration, and the store
writes already happened on the worker thread inside
`_register_single_account`. -/
def registerAccountsConcurrent : List AttemptSpec → PassSummary
  | [] => { successCount := 0, failedCount := 0, dbRows := [] }
  | a :: rest =>
    let r := registerSingleAccount a
    let s := registerAccountsConcurrent rest
    { successCount := (if r.1.success then 1 else 0) + s.successCount
      failedCount := (if r.1.success then 0 else 1) + s.failedCount
      dbRows := r.2 ++ s.dbRows }

/-- C1: a pass containing a single attempt that takes 400 s (beyond the 300 s
per-attempt timeout) and succeeds end to end still adds its row to the store
and is counted a success: the attempt is not abandoned and its write is not
suppressed, contradicting the claim that a timed-out attempt never writes. -/
theorem c1_timeout_attempt_still_writes :
    (registerAccountsConcurrent [⟨true, true, true, 400, "slow@x"⟩]).dbRows =
      ["slow@x"] ∧
    300 < (400 : Nat) ∧
    (registerAccountsConcurrent [⟨true, true, true, 400, "slow@x"⟩]).successCount = 1 := by
  refine ⟨rfl, by decide, rfl⟩

/-- Every attempt writes at most one row, and writes only when it reports
success. -/
theorem singleAccount_writes_le (a : AttemptSpec) :
    (registerSingleAccount a).2.length ≤
      (if (registerSingleAccount a).1.success then 1 else 0) := by
  simp only [registerSingleAccount]
  by_cases h1 : a.regSuccess = true
  · by_cases h2 : a.activationSuccess = true
    · by_cases h3 : a.dbAddOk = true
      · simp [h1, h2, h3]
      · simp [h1, h2, h3]
    · simp [h1, h2]
  · simp [h1]

/-- In every pass, the number of rows added to the store is at most the
reported success count. -/
theorem pass_rows_le_success :
    ∀ attempts : List AttemptSpec,
      (registerAccountsConcurrent attempts).dbRows.length ≤
        (registerAccountsConcurrent attempts).successCount := by
  intro attempts
  induction attempts with
  | nil => simp [registerAccountsConcurrent]
  | cons a rest ih =>
    simp only [registerAccountsConcurrent, List.length_append]
    have := singleAccount_writes_le a
    omega

/-- C9: an attempt whose provisioning and activation succeed but whose db add
fails is still reported as a success and writes nothing, so any pass
containing such an attempt reports strictly more successes than it adds store
rows (and never fewer rows than successes). -/
theorem c9_success_exceeds_rows (attempts : List AttemptSpec) (a : AttemptSpec)
    (hmem : a ∈ attempts) (hreg : a.regSuccess = true)
    (hact : a.activationSuccess = true) (hdb : a.dbAddOk = false) :
    (registerSingleAccount a).1.success = true ∧
    (registerSingleAccount a).2 = [] ∧
    (registerAccountsConcurrent attempts).dbRows.length <
      (registerAccountsConcurrent attempts).successCount := by
  have hsingle : registerSingleAccount a = (⟨true⟩, []) := by
    simp [registerSingleAccount, hreg, hact, hdb]
  refine ⟨by rw [hsingle], by rw [hsingle], ?_⟩
  induction attempts with
  | nil => cases hmem
  | cons b rest ih =>
    rcases List.mem_cons.mp hmem with hb | hb
    · subst hb
      simp [registerAccountsConcurrent, hsingle]
      have := pass_rows_le_success rest
      omega
    · have hrest := ih hb
      simp only [registerAccountsConcurrent, List.length_append]
      have := singleAccount_writes_le b
      omega

/-- Witness for C9: a two-attempt pass where the first attempt's db add fails
reports 2 successes but adds only 1 row. -/
theorem c9_success_exceeds_rows_witness :
    (registerSingleAccount ⟨true, true, false, 10, "lost@x"⟩).1.success = true ∧
    (registerSingleAccount ⟨true, true, false, 10, "lost@x"⟩).2 = [] ∧
    (registerAccountsConcurrent
      [⟨true, true, false, 10, "lost@x"⟩,
       ⟨true, true, true, 20, "kept@x"⟩]).dbRows.length <
      (registerAccountsConcurrent
        [⟨true, true, false, 10, "lost@x"⟩,
         ⟨true, true, true, 20, "kept@x"⟩]).successCount :=
  c9_success_exceeds_rows
    [⟨true, true, false, 10, "lost@x"⟩, ⟨true, true, true, 20, "kept@x"⟩]
    ⟨true, true, false, 10, "lost@x"⟩ (by simp) rfl rfl rfl

/-- Modelled from the spec: the atomic claim operation of the
CredentialStore / PoolManager. The file `account_pool/pool_manager.py` is
imported by `main.py` but is not among the sources, so the claim is taken
from the spec's words: select up to `count` rows currently `available`,
transition them to `in_use` bound to the session id, and return exactly the
rows transitioned; allocation is all-or-nothing, so fewer than `count`
available rows yields the explicit insufficient-result (empty list). -/
def claimAvailable (count : Nat) (sid : String) (table : List AccountRow) :
    List AccountRow × List AccountRow :=
  let avail := table.filter (fun r => r.status == .available)
  if avail.length < count then
    ([], table)
  else
    let chosen := (avail.take count).map (fun r =>
      { r with status := .in_use, session_id := some sid })
    let chosenEmails := (avail.take count).map (fun r => r.email)
    let updated := table.map (fun r =>
      if chosenEmails.contains r.email then
        { r with status := .in_use, session_id := some sid }
      else r)
    (chosen, updated)

/-- Modelled from the spec: `PoolManager.allocate_accounts_for_request`
(missing `account_pool/pool_manager.py`). If the given session id is still
bound to a non-empty set of credentials that set is returned unchanged
(idempotent re-fetch); otherwise a session id is generated when absent and
`count` available credentials are claimed atomically. `main.py` calls it with
only `request_id=request.session_id`, so the count is always the configured
`accounts_per_request`. -/
def allocateAccountsForRequest (accountsPerRequest : Nat)
    (requestId : Option String) (freshId : String) (table : List AccountRow) :
    List AccountRow × List AccountRow :=
  let bound := match requestId with
    | some sid => table.filter (fun r => r.session_id == some sid)
    | none => []
  if bound.isEmpty then
    claimAvailable accountsPerRequest (requestId.getD freshId) table
  else
    (bound, table)

/-- The body of `POST /api/accounts/allocate` as validated by pydantic:
`session_id` optional, `count` optional defaulting to 1 with bounds
`ge=1, le=10`. -/
structure AllocateRequest where
  session_id : Option String
  count : Nat
deriving DecidableEq, Repr

/-- The `AllocateAccountResponse` of `main.py`, restricted to the fields the
claims are about. -/
structure AllocateResponse where
  success : Bool
  session_id : Option String
  accounts : List AccountRow
deriving DecidableEq, Repr

/-- The `allocate_accounts` handler of `main.py`: it calls
`pool_manager.allocate_accounts_for_request(request_id=request.session_id)` —
the validated `request.count` is never forwarded. An empty result becomes
`success=false` with an empty list and `session_id = request.session_id or ""`;
a non-empty result becomes `success=true` with
`session_id = accounts[0].session_id`. -/
def allocateEndpoint (accountsPerRequest : Nat) (freshId : String)
    (req : AllocateRequest) (table : List AccountRow) :
    AllocateResponse × List AccountRow :=
  let res := allocateAccountsForRequest accountsPerRequest req.session_id freshId table
  match res.1 with
  | [] =>
    ({ success := false, session_id := some (req.session_id.getD ""), accounts := [] },
     res.2)
  | a :: rest =>
    ({ success := true, session_id := a.session_id, accounts := a :: rest }, res.2)

/-- C3 counterexample: with `accounts_per_request = 1` configured, a request
with `count = 2` (within the validated range 1..10) against a pool of two
available accounts yields a successful response with exactly 1 account, not
the requested 2: the endpoint never forwards `request.count`. -/
theorem c3_count_ignored_counterexample :
    (1 : Nat) ≤ 2 ∧ (2 : Nat) ≤ 10 ∧
    (allocateEndpoint 1 "fresh" ⟨none, 2⟩
      [⟨"a@x", .available, none, none⟩,
       ⟨"b@x", .available, none, none⟩]).1.success = true ∧
    (allocateEndpoint 1 "fresh" ⟨none, 2⟩
      [⟨"a@x", .available, none, none⟩,
       ⟨"b@x", .available, none, none⟩]).1.accounts.length = 1 ∧
    (1 : Nat) ≠ 2 := by
  refine ⟨by decide, by decide, ?_, ?_, by decide⟩ <;> rfl

/-- C3 (amended): for a request whose session id is absent or not bound to
any row, the response never holds a partial set: if at least
`accounts_per_request` rows are available the response is successful and
holds exactly `accounts_per_request` distinct accounts, all bound to the one
returned session id; if fewer are available the response is the explicit
insufficient-result `success = false` with an empty account list. The
request's validated `count` field plays no part. -/
theorem c3_allocate_all_or_nothing (accountsPerRequest : Nat) (freshId : String)
    (req : AllocateRequest) (table : List AccountRow)
    (hpos : 0 < accountsPerRequest)
    (hunbound : (match req.session_id with
      | some sid => table.filter (fun r => r.session_id == some sid)
      | none => ([] : List AccountRow)) = [])
    (hnodup : (table.map (fun r => r.email)).Nodup) :
    (accountsPerRequest ≤ (table.filter (fun r => r.status == .available)).length →
      (allocateEndpoint accountsPerRequest freshId req table).1.success = true ∧
      (allocateEndpoint accountsPerRequest freshId req table).1.accounts.length =
        accountsPerRequest ∧
      ((allocateEndpoint accountsPerRequest freshId req table).1.accounts.map
        (fun r => r.email)).Nodup ∧
      (∀ a ∈ (allocateEndpoint accountsPerRequest freshId req table).1.accounts,
        a.session_id = some (req.session_id.getD freshId) ∧ a.status = .in_use) ∧
      (allocateEndpoint accountsPerRequest freshId req table).1.session_id =
        some (req.session_id.getD freshId)) ∧
    ((table.filter (fun r => r.status == .available)).length < accountsPerRequest →
      (allocateEndpoint accountsPerRequest freshId req table).1.success = false ∧
      (allocateEndpoint accountsPerRequest freshId req table).1.accounts = []) := by
  have halloc : allocateAccountsForRequest accountsPerRequest req.session_id freshId table =
      claimAvailable accountsPerRequest (req.session_id.getD freshId) table := by
    simp only [allocateAccountsForRequest, hunbound]
    rfl
  constructor
  · intro hle
    have hnotlt : ¬ ((table.filter (fun r => r.status == .available)).length <
        accountsPerRequest) := not_lt.mpr hle
    set sid := req.session_id.getD freshId with hsid
    set avail := table.filter (fun r => r.status == .available) with havail
    have hclaim : claimAvailable accountsPerRequest sid table =
        ((avail.take accountsPerRequest).map (fun r =>
          { r with status := .in_use, session_id := some sid }),
         table.map (fun r =>
          if ((avail.take accountsPerRequest).map (fun r => r.email)).contains r.email then
            { r with status := .in_use, session_id := some sid }
          else r)) := by
      simp only [claimAvailable, ← havail, hnotlt, if_false]
    have hlen : ((avail.take accountsPerRequest).map (fun r =>
        { r with status := .in_use, session_id := some sid })).length =
        accountsPerRequest := by
      simp [List.length_take, Nat.min_eq_left hle]
    have hall : ∀ a ∈ (avail.take accountsPerRequest).map (fun r =>
        { r with status := .in_use, session_id := some sid }),
        a.session_id = some sid ∧ a.status = AccountStatus.in_use := by
      intro a ha
      obtain ⟨r0, _, hr0⟩ := List.mem_map.mp ha
      subst hr0
      exact ⟨rfl, rfl⟩
    have hchosen_nodup : (((avail.take accountsPerRequest).map (fun r =>
        { r with status := .in_use, session_id := some sid })).map
          (fun r => r.email)).Nodup := by
      rw [List.map_map]
      have hsub : (avail.take accountsPerRequest).Sublist table :=
        (List.take_sublist _ _).trans (havail ▸ List.filter_sublist table)
      have : ((avail.take accountsPerRequest).map (fun r => r.email)).Sublist
          (table.map (fun r => r.email)) := hsub.map _
      exact hnodup.sublist this
    cases hch : (avail.take accountsPerRequest).map (fun r =>
        { r with status := .in_use, session_id := some sid }) with
    | nil =>
      rw [hch] at hlen
      simp at hlen
      omega
    | cons a rest =>
      have hsess : a.session_id = some sid :=
        (hall a (hch ▸ List.mem_cons_self a rest)).1
      have hshape : (allocateEndpoint accountsPerRequest freshId req table).1 =
          { success := true, session_id := a.session_id, accounts := a :: rest } := by
        simp only [allocateEndpoint, halloc, hclaim, hch]
      refine ⟨by rw [hshape], ?_, ?_, ?_, ?_⟩
      · rw [hshape]
        rw [hch] at hlen
        exact hlen
      · rw [hshape]
        rw [hch] at hchosen_nodup
        exact hchosen_nodup
      · rw [hshape]
        intro b hb
        exact hall b (hch ▸ hb)
      · rw [hshape, hsess]
  · intro hlt
    have hshape : (allocateEndpoint accountsPerRequest freshId req table).1 =
        { success := false, session_id := some (req.session_id.getD ""),
          accounts := [] } := by
      simp only [allocateEndpoint, halloc, claimAvailable, hlt, if_true]
    rw [hshape]
    exact ⟨rfl, rfl⟩

/-- Witness for C3: one available row, `accounts_per_request = 1`, a fresh
request succeeds with that single row; a two-per-request configuration over
the same one-row pool returns the insufficient-result. -/
theorem c3_allocate_all_or_nothing_witness :
    ((allocateEndpoint 1 "s9" ⟨none, 1⟩
        [⟨"a@x", .available, none, none⟩]).1.success = true ∧
     (allocateEndpoint 1 "s9" ⟨none, 1⟩
        [⟨"a@x", .available, none, none⟩]).1.accounts.length = 1) ∧
    ((allocateEndpoint 2 "s9" ⟨none, 1⟩
        [⟨"a@x", .available, none, none⟩]).1.success = false ∧
     (allocateEndpoint 2 "s9" ⟨none, 1⟩
        [⟨"a@x", .available, none, none⟩]).1.accounts = []) := by
  constructor
  · have h := (c3_allocate_all_or_nothing 1 "s9" ⟨none, 1⟩
      [⟨"a@x", .available, none, none⟩] (by decide) (by rfl) (by decide)).1
      (by decide)
    exact ⟨h.1, h.2.1⟩
  · exact (c3_allocate_all_or_nothing 2 "s9" ⟨none, 1⟩
      [⟨"a@x", .available, none, none⟩] (by decide) (by rfl) (by decide)).2
      (by decide)

/-- A bearer token as seen by the broker. `expiry` is the outcome of
`is_token_expired`: `some b` when the JWT decodes with expiry flag `b`,
`none` when decoding raises. -/
structure Token where
  raw : String
  expiry : Option Bool
deriving DecidableEq, Repr

/-- One account dict of an allocate response, restricted to the keys
`pool_auth.py` reads. -/
structure PoolAccount where
  email : Option String
  idToken : Option Token
deriving DecidableEq, Repr

/-- The module-level `_current_session` dict of `pool_auth.py`. -/
structure CachedSession where
  session_id : Option String
  accounts : List PoolAccount
  account : Option PoolAccount
  accountIndex : Nat
  accessToken : Option Token
  createdAt : Nat
deriving DecidableEq, Repr

/-- `PoolAuthManager._is_session_valid`: invalid when the session is older
than 1800 s (strict `>`), when there is no access token, or when the access
token decodes as expired; when decoding the access token raises, the
account's `id_token` is consulted the same way, and a second failure (or a
missing id token) leaves the session valid. -/
def isSessionValid (now : Nat) (s : CachedSession) : Bool :=
  if 1800 < now - s.createdAt then
    false
  else
    match s.accessToken with
    | none => false
    | some tok =>
      match tok.expiry with
      | some b => !b
      | none =>
        match s.account with
        | some acc =>
          match acc.idToken with
          | some idt =>
            match idt.expiry with
            | some b => !b
            | none => true
          | none => true
        | none => true

/-- The JSON body of the pool service's allocate response as read by
`acquire_pool_access_token`. -/
structure PoolHttpResponse where
  statusCode : Nat
  success : Bool
  accounts : List PoolAccount
  session_id : Option String
deriving DecidableEq, Repr

/-- The observable outcome of one `acquire_pool_access_token` call: the token
returned, the session cache afterwards, and whether an allocation request was
posted to the pool service. -/
structure AcquireOutcome where
  token : Token
  cache : Option CachedSession
  allocationIssued : Bool
deriving DecidableEq, Repr

/-- The allocation arm of `acquire_pool_access_token`: POST
`/api/accounts/allocate`, raise unless HTTP 200 with `success` and a
non-empty account list, then derive the bearer token from `accounts[0]`
(`derive` stands for `_get_access_token_from_account`, which may itself
raise) and store the fresh session dict with `created_at = now`. -/
def allocateFresh (now : Nat) (derive : PoolAccount → Except String Token)
    (resp : PoolHttpResponse) : Except String AcquireOutcome :=
  if resp.statusCode ≠ 200 then
    .error "allocate HTTP error"
  else if !resp.success then
    .error "allocate unsuccessful"
  else
    match resp.accounts with
    | [] => .error "no accounts"
    | a :: rest =>
      match derive a with
      | .error e => .error e
      | .ok t =>
        .ok { token := t
              cache := some { session_id := resp.session_id
                              accounts := a :: rest
                              account := some a
                              accountIndex := 0
                              accessToken := some t
                              createdAt := now }
              allocationIssued := true }

/-- `PoolAuthManager.acquire_pool_access_token` as one sequential call: under
the lock the cached session is checked with `_is_session_valid` and its
`access_token` returned on success; otherwise the allocation arm runs. -/
def acquirePoolAccessToken (now : Nat) (derive : PoolAccount → Except String Token)
    (cache : Option CachedSession) (resp : PoolHttpResponse) :
    Except String AcquireOutcome :=
  match cache with
  | some s =>
    if isSessionValid now s then
      match s.accessToken with
      | some t => .ok { token := t, cache := some s, allocationIssued := false }
      | none => .error "invalid session shape"
    else
      allocateFresh now derive resp
  | none => allocateFresh now derive resp

/-- C7 counterexample: a cached session exactly 1800 s old (not strictly
below the 30-minute TTL) with an unexpired access token is still reused with
no allocation request: `_is_session_valid` rejects only ages strictly greater
than 1800, so the claimed "otherwise a new allocation is requested" fails at
the boundary. -/
theorem c7_ttl_boundary_counterexample :
    ¬ (1800 - (0 : Nat) < 1800) ∧
    acquirePoolAccessToken 1800
      (fun _ => .ok ⟨"derived", some false⟩)
      (some ⟨some "sid", [⟨some "a@x", none⟩], some ⟨some "a@x", none⟩, 0,
            some ⟨"cached", some false⟩, 0⟩)
      ⟨200, true, [⟨some "a@x", none⟩], some "sid"⟩ =
      .ok ⟨⟨"cached", some false⟩,
           some ⟨some "sid", [⟨some "a@x", none⟩], some ⟨some "a@x", none⟩, 0,
                 some ⟨"cached", some false⟩, 0⟩,
           false⟩ := by
  constructor
  · decide
  · rfl

/-- C7 (amended): a cached session that passes `_is_session_valid` — age at
most 1800 s and access token present and not determined expired — is reused:
its token is returned and no allocation is issued; in every other case the
allocation arm runs, and on a 200/success response with accounts the bearer
token is the one derived from the first allocated account, cached in a fresh
session created at the current time. -/
theorem c7_acquire_characterization (now : Nat)
    (derive : PoolAccount → Except String Token)
    (cache : Option CachedSession) (resp : PoolHttpResponse) :
    (∀ s t, cache = some s → s.accessToken = some t → isSessionValid now s = true →
      acquirePoolAccessToken now derive cache resp =
        .ok { token := t, cache := some s, allocationIssued := false }) ∧
    (∀ s, cache = some s → isSessionValid now s = false →
      acquirePoolAccessToken now derive cache resp = allocateFresh now derive resp) ∧
    (cache = none →
      acquirePoolAccessToken now derive cache resp = allocateFresh now derive resp) ∧
    (∀ a rest t, resp.statusCode = 200 → resp.success = true →
      resp.accounts = a :: rest → derive a = .ok t →
      allocateFresh now derive resp =
        .ok { token := t
              cache := some { session_id := resp.session_id
                              accounts := a :: rest
                              account := some a
                              accountIndex := 0
                              accessToken := some t
                              createdAt := now }
              allocationIssued := true }) := by
  refine ⟨?_, ?_, ?_, ?_⟩
  · intro s t hc ht hvalid
    subst hc
    simp only [acquirePoolAccessToken, hvalid, if_true, ht]
  · intro s hc hinvalid
    subst hc
    simp only [acquirePoolAccessToken, hinvalid, Bool.false_eq_true, if_false]
  · intro hc
    subst hc
    rfl
  · intro a rest t h200 hsucc hacc hder
    simp only [allocateFresh, h200, hsucc, hacc, hder]
    rfl

/-- Witness for C7, exercising both the reuse arm (a fresh valid session at
`now = 10`) and the allocation arm (no cache, a successful response). -/
theorem c7_acquire_characterization_witness :
    acquirePoolAccessToken 10 (fun _ => .ok ⟨"derived", some false⟩)
      (some ⟨some "sid", [], none, 0, some ⟨"cached", some false⟩, 5⟩)
      ⟨200, true, [⟨some "a@x", none⟩], some "sid"⟩ =
      .ok ⟨⟨"cached", some false⟩,
           some ⟨some "sid", [], none, 0, some ⟨"cached", some false⟩, 5⟩,
           false⟩ ∧
    acquirePoolAccessToken 10 (fun _ => .ok ⟨"derived", some false⟩)
      none ⟨200, true, [⟨some "a@x", none⟩], some "sid"⟩ =
      .ok ⟨⟨"derived", some false⟩,
           some ⟨some "sid", [⟨some "a@x", none⟩], some ⟨some "a@x", none⟩, 0,
                 some ⟨"derived", some false⟩, 10⟩,
           true⟩ := by
  constructor
  · exact (c7_acquire_characterization 10 (fun _ => .ok ⟨"derived", some false⟩)
      (some ⟨some "sid", [], none, 0, some ⟨"cached", some false⟩, 5⟩)
      ⟨200, true, [⟨some "a@x", none⟩], some "sid"⟩).1
      ⟨some "sid", [], none, 0, some ⟨"cached", some false⟩, 5⟩
      ⟨"cached", some false⟩ rfl rfl (by decide)
  · have h := c7_acquire_characterization 10 (fun _ => .ok ⟨"derived", some false⟩)
      none ⟨200, true, [⟨some "a@x", none⟩], some "sid"⟩
    rw [h.2.2.1 rfl]
    exact h.2.2.2 ⟨some "a@x", none⟩ [] ⟨"derived", some false⟩ rfl rfl rfl rfl

/-- The instance fields of `PoolAuthManager` reset by `release_current_session`. -/
structure BrokerFields where
  current_session_id : Option String
  current_account : Option PoolAccount
  accounts : List PoolAccount
  accountIndex : Nat
  accessToken : Option Token
deriving DecidableEq, Repr

/-- The outcome of the POST to `/api/accounts/release`: an HTTP status code,
or the request raising. -/
inductive ReleaseHttpOutcome where
  | status (code : Nat)
  | exn
deriving DecidableEq, Repr

/-- The field values after the `finally` block of `release_current_session`. -/
def clearedFields : BrokerFields :=
  { current_session_id := none
    current_account := none
    accounts := []
    accountIndex := 0
    accessToken := none }

/-- `PoolAuthManager.release_current_session`: with the lock held, return
early when there is no cached session, and also return early — before the
try/finally — when the cached session has no `session_id`; otherwise POST the
release (outcome only logged) and clear the cache and every instance field in
the `finally` block. -/
def releaseCurrentSession (cache : Option CachedSession) (fields : BrokerFields)
    (outcome : ReleaseHttpOutcome) : Option CachedSession × BrokerFields :=
  match cache with
  | none => (cache, fields)
  | some s =>
    match s.session_id with
    | none => (cache, fields)
    | some _ =>
      match outcome with
      | _ => (none, clearedFields)

/-- C10 counterexample: a release call that finds a cached session whose
`session_id` key is `None` returns through the early `return` placed before
the try/finally, so neither the cache nor any instance field is cleared —
refuting "after every call that finds a cached session ... are cleared". -/
theorem c10_release_without_id_counterexample :
    releaseCurrentSession
      (some ⟨none, [⟨some "a@x", none⟩], some ⟨some "a@x", none⟩, 0,
             some ⟨"tok", some false⟩, 5⟩)
      ⟨some "sid", some ⟨some "a@x", none⟩, [⟨some "a@x", none⟩], 0,
       some ⟨"tok", some false⟩⟩
      (.status 200) =
      (some ⟨none, [⟨some "a@x", none⟩], some ⟨some "a@x", none⟩, 0,
             some ⟨"tok", some false⟩, 5⟩,
       ⟨some "sid", some ⟨some "a@x", none⟩, [⟨some "a@x", none⟩], 0,
        some ⟨"tok", some false⟩⟩) ∧
    (some (⟨none, [⟨some "a@x", none⟩], some ⟨some "a@x", none⟩, 0,
           some ⟨"tok", some false⟩, 5⟩ : CachedSession)) ≠ none := by
  constructor
  · rfl
  · intro h
    cases h

/-- C10 (amended): after every release call that finds a cached session
carrying a session id, the session cache and all broker instance fields are
cleared, whatever the remote release outcome — HTTP 200, any non-200 status,
or a raised exception. -/
theorem c10_release_clears_state (s : CachedSession) (sid : String)
    (fields : BrokerFields) (outcome : ReleaseHttpOutcome)
    (hsid : s.session_id = some sid) :
    releaseCurrentSession (some s) fields outcome = (none, clearedFields) := by
  simp only [releaseCurrentSession, hsid]

/-- Witness for C10 on a concrete session, for a non-200 status and for a
raised exception. -/
theorem c10_release_clears_state_witness :
    releaseCurrentSession
      (some ⟨some "sid", [], none, 0, some ⟨"tok", some false⟩, 5⟩)
      ⟨some "sid", none, [], 0, some ⟨"tok", some false⟩⟩
      (.status 500) = (none, clearedFields) ∧
    releaseCurrentSession
      (some ⟨some "sid", [], none, 0, some ⟨"tok", some false⟩, 5⟩)
      ⟨some "sid", none, [], 0, some ⟨"tok", some false⟩⟩
      .exn = (none, clearedFields) :=
  ⟨c10_release_clears_state ⟨some "sid", [], none, 0, some ⟨"tok", some false⟩, 5⟩
      "sid" ⟨some "sid", none, [], 0, some ⟨"tok", some false⟩⟩ (.status 500) rfl,
   c10_release_clears_state ⟨some "sid", [], none, 0, some ⟨"tok", some false⟩, 5⟩
      "sid" ⟨some "sid", none, [], 0, some ⟨"tok", some false⟩⟩ .exn rfl⟩

/-- Program counter of one `acquire_pool_access_token` call, following the
lock structure of the source: the cached-session check runs under
`_session_lock`, the lock is then RELEASED, the allocation POST runs outside
any lock, and the session save re-acquires the lock. -/
inductive AcquirePC where
  | checkCache
  | doAlloc
  | saveSession
  | finished
deriving DecidableEq, Repr

/-- Shared state of two concurrent acquire calls in one process: the
module-level `_current_session`, the number of allocation requests posted to
the pool service so far, and each call's program counter. -/
structure BrokerConcState where
  cache : Option CachedSession
  allocCount : Nat
  pc0 : AcquirePC
  pc1 : AcquirePC
deriving DecidableEq, Repr

/-- Environment of the two calls: the current time used by the validity
check, and the fresh session each call's allocation would produce. -/
structure TwoCallEnv where
  now : Nat
  fresh0 : CachedSession
  fresh1 : CachedSession
deriving DecidableEq, Repr

/-- The program counter of call `t` (`false` = first call, `true` = second). -/
def pcOf (st : BrokerConcState) (t : Bool) : AcquirePC :=
  match t with
  | false => st.pc0
  | true => st.pc1

/-- Replace the program counter of call `t`. -/
def setPc (st : BrokerConcState) (t : Bool) (p : AcquirePC) : BrokerConcState :=
  match t with
  | false => { st with pc0 := p }
  | true => { st with pc1 := p }

/-- One atomic step of call `t`, exactly the critical sections of the source:
`checkCache` is the locked validity check (a hit finishes with the cached
token, a miss releases the lock and moves on), `doAlloc` is the unlocked
POST to `/api/accounts/allocate`, `saveSession` is the locked store of the
fresh `_current_session`. -/
def acquireStep (env : TwoCallEnv) (st : BrokerConcState) (t : Bool) :
    BrokerConcState :=
  match pcOf st t with
  | .checkCache =>
    match st.cache with
    | some s =>
      if isSessionValid env.now s then setPc st t .finished
      else setPc st t .doAlloc
    | none => setPc st t .doAlloc
  | .doAlloc => setPc { st with allocCount := st.allocCount + 1 } t .saveSession
  | .saveSession =>
    setPc { st with cache := some (match t with
                                   | false => env.fresh0
                                   | true => env.fresh1) } t .finished
  | .finished => st

/-- Run a schedule (an interleaving of the two calls' steps). -/
def runSchedule (env : TwoCallEnv) (sched : List Bool) (st : BrokerConcState) :
    BrokerConcState :=
  sched.foldl (acquireStep env) st

/-- Both calls about to run against a given shared cache; no allocation has
been posted yet. -/
def initBrokerState (cache : Option CachedSession) : BrokerConcState :=
  { cache := cache, allocCount := 0, pc0 := .checkCache, pc1 := .checkCache }

/-- C2 counterexample: starting with no cached session, the interleaving
"call 0 checks, call 1 checks, call 0 allocates, call 1 allocates" posts TWO
allocation requests — the lock is released between the cached-session check
and the allocation POST, so the second caller does not wait for and reuse
the first caller's allocation, even though the first caller's fresh session
(30 minutes of validity at `now = 0`) would have served it. -/
theorem c2_duplicate_allocation_counterexample :
    (runSchedule
      ⟨0, ⟨some "s0", [], none, 0, some ⟨"t0", some false⟩, 0⟩,
          ⟨some "s1", [], none, 0, some ⟨"t1", some false⟩, 0⟩⟩
      [false, true, false, true]
      (initBrokerState none)).allocCount = 2 ∧
    isSessionValid 0 ⟨some "s0", [], none, 0, some ⟨"t0", some false⟩, 0⟩ = true := by
  constructor
  · rfl
  · rfl

/-- The number of allocations a call can still post: one before it passes
`doAlloc`, zero afterwards. -/
def pcAllocBudget : AcquirePC → Nat
  | .checkCache => 1
  | .doAlloc => 1
  | .saveSession => 0
  | .finished => 0

/-- Invariant measure: allocations already posted plus both calls' remaining
budgets. -/
def allocMeasure (st : BrokerConcState) : Nat :=
  st.allocCount + pcAllocBudget st.pc0 + pcAllocBudget st.pc1

/-- Every step leaves the measure unchanged or smaller. -/
theorem acquireStep_measure_le (env : TwoCallEnv) (st : BrokerConcState) (t : Bool) :
    allocMeasure (acquireStep env st t) ≤ allocMeasure st := by
  cases t with
  | false =>
    cases hpc : st.pc0 with
    | checkCache =>
      simp only [acquireStep, pcOf, hpc]
      cases st.cache with
      | none =>
        simp only [allocMeasure, setPc, pcAllocBudget, hpc]
        omega
      | some s =>
        by_cases hv : isSessionValid env.now s = true
        all_goals simp [hv, allocMeasure, setPc, pcAllocBudget, hpc]
    | doAlloc =>
      simp only [acquireStep, pcOf, hpc, allocMeasure, setPc, pcAllocBudget]
      omega
    | saveSession =>
      simp only [acquireStep, pcOf, hpc, allocMeasure, setPc, pcAllocBudget]
      omega
    | finished =>
      simp only [acquireStep, pcOf, hpc]
      exact Nat.le_refl _
  | true =>
    cases hpc : st.pc1 with
    | checkCache =>
      simp only [acquireStep, pcOf, hpc]
      cases st.cache with
      | none =>
        simp only [allocMeasure, setPc, pcAllocBudget, hpc]
        omega
      | some s =>
        by_cases hv : isSessionValid env.now s = true
        all_goals simp [hv, allocMeasure, setPc, pcAllocBudget, hpc]
    | doAlloc =>
      simp only [acquireStep, pcOf, hpc, allocMeasure, setPc, pcAllocBudget]
      omega
    | saveSession =>
      simp only [acquireStep, pcOf, hpc, allocMeasure, setPc, pcAllocBudget]
      omega
    | finished =>
      simp only [acquireStep, pcOf, hpc]
      exact Nat.le_refl _

/-- The measure never grows along any schedule. -/
theorem runSchedule_measure_le (env : TwoCallEnv) (sched : List Bool)
    (st : BrokerConcState) :
    allocMeasure (runSchedule env sched st) ≤ allocMeasure st := by
  induction sched generalizing st with
  | nil => exact Nat.le_refl _
  | cons t rest ih =>
    exact (ih (acquireStep env st t)).trans (acquireStep_measure_le env st t)

/-- C2 (amended): the session mutex guards only the cached-session check and
the session save, not the allocation POST, so two concurrent acquire calls
that both miss the cache each post their own allocation; what does hold is
that each call allocates at most once — any interleaving of the two calls
posts at most two allocation requests (and a call that sees a valid cached
session posts none, finishing immediately). -/
theorem c2_alloc_bound (env : TwoCallEnv) (cache : Option CachedSession)
    (sched : List Bool) :
    (runSchedule env sched (initBrokerState cache)).allocCount ≤ 2 ∧
    (∀ s, cache = some s → isSessionValid env.now s = true →
      acquireStep env (initBrokerState cache) false =
        setPc (initBrokerState cache) false .finished) := by
  constructor
  · have h := runSchedule_measure_le env sched (initBrokerState cache)
    have hinit : allocMeasure (initBrokerState cache) = 2 := rfl
    have hfinal : (runSchedule env sched (initBrokerState cache)).allocCount ≤
        allocMeasure (runSchedule env sched (initBrokerState cache)) := by
      simp only [allocMeasure]
      omega
    omega
  · intro s hc hvalid
    subst hc
    simp only [acquireStep, pcOf, initBrokerState, hvalid, if_true]
